import Mathlib

/-
Shallow embedding of the unyt_expense_tracker repository.

The repository has two parallel implementations of the same expense/budget
tracker:
  * src/streamlit_browser_version/streamlit_cloud_app.py  (class ExpenseManager)
  * src/terminal_version/expense_tracker.py               (class ExpenseManager)

Amounts are embedded as rationals, calendar dates/instants as integers (only
their ordering matters to the code under verification).  Pandas DataFrames of
expense and budget rows are embedded as Lean lists of records; the positional
index of a record in the list is the DataFrame row label (every mutation in
the source either appends with ignore_index=True or calls
reset_index(drop=True), so labels always coincide with positions).
-/

namespace ShinyJar

abbrev Date := Int

/-- One row of the expenses table (columns of expenses_df in both versions). -/
structure Expense where
  amount : ℚ
  date : Date
  category : String
  description : String
  payment_method : String
  tags : String
deriving DecidableEq, Repr

/-- One row of the budgets table.  end_date is optional (NaT when absent). -/
structure Budget where
  category : String
  amount : ℚ
  period : String
  start_date : Date
  end_date : Option Date
deriving DecidableEq, Repr

/-! ## Budget evaluation: overspend alerts

streamlit_cloud_app.py, ExpenseManager.get_alerts (lines 203-219) and
terminal expense_tracker.py, ExpenseManager._check_budget_alerts
(lines 149-163).  Both resolve the window end to today when end_date is
absent, select expenses inside the inclusive window (restricted to exact
category equality unless the budget category is "overall"), sum the amounts
and emit an alert exactly when spent strictly exceeds the budget amount.
The evaluation instant (date.today() resp. datetime.now()) is passed in
explicitly as the parameter today. -/

/-- The evaluation window's end: end_date when set, the evaluation instant
otherwise (both versions substitute now/today for a missing end_date). -/
def windowEnd (b : Budget) (today : Date) : Date :=
  match b.end_date with | some d => d | none => today

/-- The date-window mask (date >= start) & (date <= end), both inclusive. -/
def inWindow (b : Budget) (today : Date) (e : Expense) : Bool :=
  decide (b.start_date ≤ e.date) && decide (e.date ≤ windowEnd b today)

/-- Spent computation of get_alerts (streamlit): first the date-window mask,
then, for a non-overall budget, the additional exact category filter. -/
def spentFor (es : List Expense) (b : Budget) (today : Date) : ℚ :=
  if b.category = "overall" then
    ((es.filter (inWindow b today)).map Expense.amount).sum
  else
    (((es.filter (inWindow b today)).filter
        (fun e => decide (e.category = b.category))).map Expense.amount).sum

/-- Spent computation of _check_budget_alerts (terminal): one combined mask
per branch.  Budgets built by set_budget carry end_date = None when the user
leaves it blank, which is falsy, hence the Option model. -/
def spentForT (es : List Expense) (b : Budget) (today : Date) : ℚ :=
  if b.category = "overall" then
    ((es.filter (inWindow b today)).map Expense.amount).sum
  else
    ((es.filter (fun e =>
        inWindow b today e && decide (e.category = b.category))).map Expense.amount).sum

/-- The spec's wording of the spent sum: one selection of the expenses whose
date lies in the inclusive window and whose category matches (an "overall"
budget matches every expense), then the sum of their amounts. -/
def spentSpec (es : List Expense) (b : Budget) (today : Date) : ℚ :=
  ((es.filter (fun e =>
      inWindow b today e &&
      (decide (b.category = "overall") || decide (e.category = b.category)))).map
    Expense.amount).sum

/-- ExpenseManager.get_alerts: iterate over all budgets in order and emit
(category, budget amount, spent) whenever spent strictly exceeds the amount.
The source formats the triple into an f-string; the triple is the data. -/
def getAlerts (es : List Expense) (bs : List Budget) (today : Date) :
    List (String × ℚ × ℚ) :=
  bs.filterMap (fun b =>
    let spent := spentFor es b today
    if b.amount < spent then some (b.category, b.amount, spent) else none)

/-- ExpenseManager._check_budget_alerts (terminal): same iteration, printing
one line per overspent budget; embedded as the list of printed triples. -/
def checkBudgetAlerts (es : List Expense) (bs : List Budget) (today : Date) :
    List (String × ℚ × ℚ) :=
  bs.filterMap (fun b =>
    let spent := spentForT es b today
    if b.amount < spent then some (b.category, b.amount, spent) else none)

/-! ## Store mutation: edit and delete

streamlit_cloud_app.py lines 125-143 (edit_expense, delete_expense) and
183-201 (edit_budget, delete_budget); terminal expense_tracker.py lines
91-111 (edit_expense, delete_expense).  Both guard the index first and raise
IndexError before touching anything; the embedding returns the (possibly
updated) store together with an optional error, so the untouched-on-error
behaviour of the raise-before-mutate order is explicit. -/

/-- The columns of the expenses table. -/
def expenseColumns : List String :=
  ["amount", "date", "category", "description", "payment_method", "tags"]

/-- The columns of the budgets table. -/
def budgetColumns : List String :=
  ["category", "amount", "period", "start_date", "end_date"]

/-- A value supplied in the kwargs bag of edit_expense.  Python cells are
dynamically typed; the model covers the value shapes the program stores in
each column (a key naming a column together with a value of a different
runtime shape is outside the modelled inputs). -/
inductive EditVal where
  | num (q : ℚ)
  | str (s : String)
  | date (d : Date)
deriving DecidableEq, Repr

/-- One iteration of the edit loop: if key in df.columns, convert a date
value with pd.to_datetime (identity in the model) and assign the cell;
any other key falls through without effect. -/
def applyKw (e : Expense) (kv : String × EditVal) : Expense :=
  if kv.1 = "amount" then
    match kv.2 with | EditVal.num q => { e with amount := q } | _ => e
  else if kv.1 = "date" then
    match kv.2 with | EditVal.date d => { e with date := d } | _ => e
  else if kv.1 = "category" then
    match kv.2 with | EditVal.str s => { e with category := s } | _ => e
  else if kv.1 = "description" then
    match kv.2 with | EditVal.str s => { e with description := s } | _ => e
  else if kv.1 = "payment_method" then
    match kv.2 with | EditVal.str s => { e with payment_method := s } | _ => e
  else if kv.1 = "tags" then
    match kv.2 with | EditVal.str s => { e with tags := s } | _ => e
  else
    e

/-- In-place update of the record at one position of the store. -/
def modifyAt {α : Type} (l : List α) (i : Nat) (f : α → α) : List α :=
  match l, i with
  | [], _ => []
  | a :: t, 0 => f a :: t
  | a :: t, n + 1 => a :: modifyAt t n f

/-- ExpenseManager.edit_expense: guard the index, then apply each supplied
key/value pair in order to the record at that index. -/
def edit_expense (es : List Expense) (index : Int)
    (kwargs : List (String × EditVal)) : List Expense × Option String :=
  if index < 0 ∨ (es.length : Int) ≤ index then
    (es, some "IndexError")
  else
    (modifyAt es index.toNat (fun e => kwargs.foldl applyKw e), none)

/-- ExpenseManager.delete_expense: guard the index, then drop the row and
reset the index (all later rows shift down by one). -/
def delete_expense (es : List Expense) (index : Int) :
    List Expense × Option String :=
  if index < 0 ∨ (es.length : Int) ≤ index then
    (es, some "IndexError")
  else
    (es.eraseIdx index.toNat, none)

/-- A value supplied in the kwargs bag of edit_budget.  For the two date
columns the source stores pd.to_datetime(value) if value else pd.NaT, so a
null value is representable for them. -/
inductive BEditVal where
  | num (q : ℚ)
  | str (s : String)
  | date (d : Option Date)
deriving DecidableEq, Repr

/-- One iteration of the edit_budget loop.  Assigning a null start_date
(NaT) is outside the modelled inputs, since the model keeps start_date
total; no claim exercises it. -/
def applyBudgetKw (b : Budget) (kv : String × BEditVal) : Budget :=
  if kv.1 = "category" then
    match kv.2 with | BEditVal.str s => { b with category := s } | _ => b
  else if kv.1 = "amount" then
    match kv.2 with | BEditVal.num q => { b with amount := q } | _ => b
  else if kv.1 = "period" then
    match kv.2 with | BEditVal.str s => { b with period := s } | _ => b
  else if kv.1 = "start_date" then
    match kv.2 with
    | BEditVal.date (some d) => { b with start_date := d }
    | _ => b
  else if kv.1 = "end_date" then
    match kv.2 with | BEditVal.date d => { b with end_date := d } | _ => b
  else
    b

/-- ExpenseManager.edit_budget: same index guard and update loop. -/
def edit_budget (bs : List Budget) (index : Int)
    (kwargs : List (String × BEditVal)) : List Budget × Option String :=
  if index < 0 ∨ (bs.length : Int) ≤ index then
    (bs, some "IndexError")
  else
    (modifyAt bs index.toNat (fun b => kwargs.foldl applyBudgetKw b), none)

/-- ExpenseManager.delete_budget: same index guard, then drop and reset. -/
def delete_budget (bs : List Budget) (index : Int) :
    List Budget × Option String :=
  if index < 0 ∨ (bs.length : Int) ≤ index then
    (bs, some "IndexError")
  else
    (bs.eraseIdx index.toNat, none)

/-- Which fields of a record an edit with the given key set may not touch:
every column not named among the keys keeps its old value. -/
def keeps (ks : List String) (old new : Expense) : Prop :=
  ("amount" ∉ ks → new.amount = old.amount) ∧
  ("date" ∉ ks → new.date = old.date) ∧
  ("category" ∉ ks → new.category = old.category) ∧
  ("description" ∉ ks → new.description = old.description) ∧
  ("payment_method" ∉ ks → new.payment_method = old.payment_method) ∧
  ("tags" ∉ ks → new.tags = old.tags)

/-! ## Viewing: dynamic filters and sorting

streamlit_cloud_app.py, ExpenseManager.view_expenses (lines 145-166) and
terminal expense_tracker.py, ExpenseManager.view_expenses (lines 113-132).
Filters arrive as a dict iterated in insertion order; the embedding takes
the corresponding association list.  The sort delegates to pandas
sort_values, whose default kind is quicksort; the model uses a stable merge
sort for the ordering, so tie order in the model is a modelling choice and
no theorem in this file relies on it. -/

/-- Does the needle occur as a contiguous run inside the haystack? -/
def occursIn (needle : List Char) : List Char → Bool
  | [] => needle.isEmpty
  | c :: t => List.isPrefixOf needle (c :: t) || occursIn needle t

/-- Lower-casing of one character (the ASCII range; the strings the program
filters on are plain labels, and non-ASCII case folding is outside the
modelled inputs). -/
def lowerChar (c : Char) : Char :=
  if 'A' ≤ c ∧ c ≤ 'Z' then Char.ofNat (c.toNat + 32) else c

/-- pandas Series.str.contains(value, case=False): case-insensitive
containment (regex metacharacters in the pattern are outside the modelled
inputs; on plain strings contains is containment). -/
def containsCI (hay pat : String) : Bool :=
  occursIn (pat.data.map lowerChar) (hay.data.map lowerChar)

/-- pandas Series.str.contains(value) with default case sensitivity. -/
def containsCS (hay pat : String) : Bool :=
  occursIn pat.data hay.data

/-- A value in the filters dict.  The two range filters carry pairs whose
components may be null; the three text filters carry strings. -/
inductive FilterVal where
  | dateRange (a b : Option Date)
  | amountRange (lo hi : Option ℚ)
  | str (s : String)
deriving DecidableEq, Repr

abbrev Filters := List (String × FilterVal)

/-- The filter keys the elif chain of view_expenses dispatches on. -/
def filterKeys : List String :=
  ["date_range", "amount_range", "category", "payment_method", "tags"]

/-- One iteration of the streamlit filter loop.  Each branch additionally
checks the Python truthiness of the value (a tuple is truthy, an empty
string is falsy), and the two range branches demand both bounds present;
a key outside the chain falls through unchanged. -/
def applyFilterS (df : List Expense) (kv : String × FilterVal) : List Expense :=
  if kv.1 = "date_range" then
    match kv.2 with
    | FilterVal.dateRange (some s) (some t) =>
        df.filter (fun x => decide (s ≤ x.date) && decide (x.date ≤ t))
    | _ => df
  else if kv.1 = "amount_range" then
    match kv.2 with
    | FilterVal.amountRange (some mn) (some mx) =>
        df.filter (fun x => decide (mn ≤ x.amount) && decide (x.amount ≤ mx))
    | _ => df
  else if kv.1 = "category" then
    match kv.2 with
    | FilterVal.str s => if s = "" then df else df.filter (fun x => containsCI x.category s)
    | _ => df
  else if kv.1 = "payment_method" then
    match kv.2 with
    | FilterVal.str s => if s = "" then df else df.filter (fun x => decide (x.payment_method = s))
    | _ => df
  else if kv.1 = "tags" then
    match kv.2 with
    | FilterVal.str s => if s = "" then df else df.filter (fun x => containsCI x.tags s)
    | _ => df
  else
    df

/-- One iteration of the terminal filter loop: no truthiness guards, exact
equality for category and payment_method, case-sensitive containment for
tags.  A null date bound compares like NaT: the comparison is false.  A
null amount bound would raise inside pandas and is outside the modelled
inputs (the menu never produces one); the branch keeps df. -/
def applyFilterT (df : List Expense) (kv : String × FilterVal) : List Expense :=
  if kv.1 = "date_range" then
    match kv.2 with
    | FilterVal.dateRange a b =>
        df.filter (fun x =>
          (match a with | some s => decide (s ≤ x.date) | none => false) &&
          (match b with | some t => decide (x.date ≤ t) | none => false))
    | _ => df
  else if kv.1 = "amount_range" then
    match kv.2 with
    | FilterVal.amountRange (some mn) (some mx) =>
        df.filter (fun x => decide (mn ≤ x.amount) && decide (x.amount ≤ mx))
    | _ => df
  else if kv.1 = "category" then
    match kv.2 with
    | FilterVal.str s => df.filter (fun x => decide (x.category = s))
    | _ => df
  else if kv.1 = "payment_method" then
    match kv.2 with
    | FilterVal.str s => df.filter (fun x => decide (x.payment_method = s))
    | _ => df
  else if kv.1 = "tags" then
    match kv.2 with
    | FilterVal.str s => df.filter (fun x => containsCS x.tags s)
    | _ => df
  else
    df

/-- Ascending comparison on the named column. -/
def fieldLe (f : String) (x y : Expense) : Bool :=
  if f = "amount" then decide (x.amount ≤ y.amount)
  else if f = "date" then decide (x.date ≤ y.date)
  else if f = "category" then decide (x.category ≤ y.category)
  else if f = "description" then decide (x.description ≤ y.description)
  else if f = "payment_method" then decide (x.payment_method ≤ y.payment_method)
  else decide (x.tags ≤ y.tags)

/-- df_view.sort_values(by=sort_by), guarded by the truthiness of sort_by.
pandas raises KeyError when the named column does not exist.  The ordering
is ascending on the named column; the model realises it with a merge sort
(see the section comment about tie order). -/
def sortStep (df : List Expense) (sb : Option String) :
    Except String (List Expense) :=
  match sb with
  | none => Except.ok df
  | some s =>
      if s = "" then Except.ok df
      else if s ∈ expenseColumns then Except.ok (df.mergeSort (fieldLe s))
      else Except.error "KeyError"

/-- ExpenseManager.view_expenses (streamlit): fold the filters over a copy
of the store, then sort. -/
def view_expenses (es : List Expense) (filters : Filters) (sb : Option String) :
    Except String (List Expense) :=
  sortStep (filters.foldl applyFilterS es) sb

/-- ExpenseManager.view_expenses (terminal): same shape, terminal filter
semantics. -/
def view_expensesT (es : List Expense) (filters : Filters) (sb : Option String) :
    Except String (List Expense) :=
  sortStep (filters.foldl applyFilterT es) sb

/-- The canonical filters dict holding one entry per supplied predicate, in
the insertion order the UIs use. -/
def mkFilters (dr : Option (Date × Date)) (ar : Option (ℚ × ℚ))
    (cat pm tg : Option String) : Filters :=
  (match dr with
   | some p => [("date_range", FilterVal.dateRange (some p.1) (some p.2))]
   | none => []) ++
  (match ar with
   | some p => [("amount_range", FilterVal.amountRange (some p.1) (some p.2))]
   | none => []) ++
  (match cat with | some s => [("category", FilterVal.str s)] | none => []) ++
  (match pm with | some s => [("payment_method", FilterVal.str s)] | none => []) ++
  (match tg with | some s => [("tags", FilterVal.str s)] | none => [])

/-- The claim's date-range predicate: inclusive range when supplied. -/
def drKeep (dr : Option (Date × Date)) (e : Expense) : Bool :=
  match dr with
  | some p => decide (p.1 ≤ e.date) && decide (e.date ≤ p.2)
  | none => true

/-- The claim's amount-range predicate: inclusive range when supplied. -/
def arKeep (ar : Option (ℚ × ℚ)) (e : Expense) : Bool :=
  match ar with
  | some p => decide (p.1 ≤ e.amount) && decide (e.amount ≤ p.2)
  | none => true

/-- The claim's category predicate: case-insensitive containment. -/
def catKeep (cat : Option String) (e : Expense) : Bool :=
  match cat with | some s => containsCI e.category s | none => true

/-- The terminal code's category predicate: exact equality. -/
def catKeepT (cat : Option String) (e : Expense) : Bool :=
  match cat with | some s => decide (e.category = s) | none => true

/-- The payment-method predicate: exact equality (both versions). -/
def pmKeep (pm : Option String) (e : Expense) : Bool :=
  match pm with | some s => decide (e.payment_method = s) | none => true

/-- The claim's tags predicate: case-insensitive containment. -/
def tgKeep (tg : Option String) (e : Expense) : Bool :=
  match tg with | some s => containsCI e.tags s | none => true

/-- The terminal code's tags predicate: case-sensitive containment. -/
def tgKeepT (tg : Option String) (e : Expense) : Bool :=
  match tg with | some s => containsCS e.tags s | none => true

/-- The claim's record predicate: the AND of the supplied filter predicates,
with a case-insensitive containment test on category and tags. -/
def claimKeep (dr : Option (Date × Date)) (ar : Option (ℚ × ℚ))
    (cat pm tg : Option String) (e : Expense) : Bool :=
  drKeep dr e && arKeep ar e && catKeep cat e && pmKeep pm e && tgKeep tg e

/-- The terminal version's actual record predicate: exact category equality
and case-sensitive tags containment. -/
def claimKeepT (dr : Option (Date × Date)) (ar : Option (ℚ × ℚ))
    (cat pm tg : Option String) (e : Expense) : Bool :=
  drKeep dr e && arKeep ar e && catKeepT cat e && pmKeep pm e && tgKeepT tg e

/-! ## Budget vs actual comparison

streamlit_cloud_app.py, ExpenseManager.get_budget_vs_actual (lines 221-251).
Floating-point division, round and fillna are embedded on a rational value
extended with the IEEE special values the pipeline can produce. -/

/-- A pandas float cell as the comparison pipeline can produce it. -/
inductive PFloat where
  | val (q : ℚ)
  | inf
  | ninf
  | nan
deriving DecidableEq, Repr

/-- Float division as pandas performs it elementwise: a zero divisor gives
plus or minus infinity for a nonzero dividend and NaN for 0/0. -/
def pdiv (a b : ℚ) : PFloat :=
  if b ≠ 0 then PFloat.val (a / b)
  else if 0 < a then PFloat.inf
  else if a < 0 then PFloat.ninf
  else PFloat.nan

/-- Multiplication by the positive constant 100; fixes the specials. -/
def pmul100 : PFloat → PFloat
  | PFloat.val q => PFloat.val (q * 100)
  | x => x

/-- Round half to even to an integer (numpy rounding). -/
def rhe (q : ℚ) : Int :=
  if q - (⌊q⌋ : ℚ) < 1 / 2 then ⌊q⌋
  else if (1 : ℚ) / 2 < q - (⌊q⌋ : ℚ) then ⌊q⌋ + 1
  else if ⌊q⌋ % 2 = 0 then ⌊q⌋ else ⌊q⌋ + 1

/-- Series.round(1): round half to even at one decimal place. -/
def round1 (q : ℚ) : ℚ := (rhe (q * 10) : ℚ) / 10

/-- Series.round(1) on a float cell: rounding fixes the specials. -/
def pround1 : PFloat → PFloat
  | PFloat.val q => PFloat.val (round1 q)
  | x => x

/-- Series.fillna(0): only NaN is replaced; infinities pass through. -/
def fillna0 : PFloat → PFloat
  | PFloat.nan => PFloat.val 0
  | x => x

/-- The percentage pipeline of line 249:
(actual / budget * 100).round(1).fillna(0). -/
def percentageOf (actual budget : ℚ) : PFloat :=
  fillna0 (pround1 (pmul100 (pdiv actual budget)))

/-- One row of the comparison table (columns category, budget, actual,
difference, percentage). -/
structure Row where
  category : String
  budget : ℚ
  actual : ℚ
  difference : ℚ
  percentage : PFloat
deriving DecidableEq, Repr

/-- The active-budget mask of lines 226-230: monthly period, started on or
before today, and not yet ended (a missing end_date never ends). -/
def isActive (today : Date) (b : Budget) : Bool :=
  decide (b.period = "monthly") && decide (b.start_date ≤ today) &&
    (match b.end_date with | some e => decide (today ≤ e) | none => true)

/-- One entry of actual_list (lines 234-243): the key is the literal
"Overall" for an overall budget and the budget's category otherwise, and
the value is the spent sum over the budget's window. -/
def actualEntry (es : List Expense) (today : Date) (b : Budget) : String × ℚ :=
  if b.category = "overall" then
    ("Overall", ((es.filter (inWindow b today)).map Expense.amount).sum)
  else
    (b.category,
      (((es.filter (inWindow b today)).filter
          (fun e => decide (e.category = b.category))).map Expense.amount).sum)

/-- The left merge of lines 245: active_budgets[[category, amount]] joined
with actual_df on the category key.  Each left row is joined with every
right row of equal key, in order, or with a null actual when no key
matches. -/
def mergeRows (active : List Budget) (actualList : List (String × ℚ)) :
    List (String × ℚ × Option ℚ) :=
  active.flatMap (fun b =>
    let ms := actualList.filter (fun p => decide (p.1 = b.category))
    if ms = [] then [(b.category, b.amount, (none : Option ℚ))]
    else ms.map (fun p => (b.category, b.amount, some p.2)))

/-- Lines 246-250 applied to one merged row: rename the amount column to
budget, fill a null actual with 0, compute difference and percentage, and
rename the category label "overall" to "Overall". -/
def finishRow (r : String × ℚ × Option ℚ) : Row :=
  { category := if r.1 = "overall" then "Overall" else r.1
    budget := r.2.1
    actual := r.2.2.getD 0
    difference := r.2.2.getD 0 - r.2.1
    percentage := percentageOf (r.2.2.getD 0) r.2.1 }

/-- ExpenseManager.get_budget_vs_actual: early return on either store being
empty; restrict to active budgets (early return again when none); build
actual_list; left-merge on the category key; then fillna, difference,
percentage and the final category rename. -/
def get_budget_vs_actual (es : List Expense) (bs : List Budget) (today : Date) :
    List Row :=
  if bs = [] ∨ es = [] then []
  else
    if bs.filter (isActive today) = [] then []
    else
      (mergeRows (bs.filter (isActive today))
        ((bs.filter (isActive today)).map (actualEntry es today))).map finishRow

/-- The comparison row the spec describes for a budget (with the claim's
spent sum as actual); used by the amended claim C3, which restricts to
active budgets that are not "overall" and have pairwise-distinct labels. -/
def specRow (es : List Expense) (today : Date) (b : Budget) : Row :=
  { category := b.category
    budget := b.amount
    actual := spentSpec es b today
    difference := spentSpec es b today - b.amount
    percentage := percentageOf (spentSpec es b today) b.amount }

/-! ## Concrete stores used by witnesses and counterexamples -/

/-- An expense record with empty free-text fields. -/
def mkExp (a : ℚ) (d : Date) (c : String) : Expense :=
  { amount := a, date := d, category := c,
    description := "", payment_method := "", tags := "" }

/-- A budget record. -/
def mkBud (c : String) (a : ℚ) (p : String) (s : Date) (e : Option Date) : Budget :=
  { category := c, amount := a, period := p, start_date := s, end_date := e }

def wExp : Expense := mkExp 1 0 "Misc"

def wBud : Budget := mkBud "Misc" 10 "monthly" 0 none

def c2Expenses : List Expense := [mkExp 5 10 "Food"]

def c2Budgets : List Budget := [mkBud "Food" 0 "monthly" 0 none]

def c3Budgets : List Budget := [mkBud "Food" 100 "monthly" 0 none]

def w3Expenses : List Expense := [mkExp 50 5 "Food"]

def c4Expenses : List Expense := [mkExp 5 10 "Gems"]

def c4Budget : Budget := mkBud "overall" 100 "monthly" 0 none

def c5Expense : Expense := mkExp 1 0 "Foods"

def c9Expense : Expense := mkExp 2 0 "Misc"

/-! ## Theorems -/

theorem spentFor_eq_spentSpec (es : List Expense) (b : Budget) (today : Date) :
    spentFor es b today = spentSpec es b today := by
  unfold spentFor spentSpec
  by_cases h : b.category = "overall"
  · rw [if_pos h]
    congr 1
    refine congrArg _ (List.filter_congr ?_)
    intro e _
    simp [h]
  · rw [if_neg h]
    rw [List.filter_filter]
    congr 1
    refine congrArg _ (List.filter_congr ?_)
    intro e _
    simp [h, Bool.and_comm]

theorem spentForT_eq_spentSpec (es : List Expense) (b : Budget) (today : Date) :
    spentForT es b today = spentSpec es b today := by
  unfold spentForT spentSpec
  by_cases h : b.category = "overall"
  · rw [if_pos h]
    congr 1
    refine congrArg _ (List.filter_congr ?_)
    intro e _
    simp [h]
  · rw [if_neg h]
    congr 1
    refine congrArg _ (List.filter_congr ?_)
    intro e _
    simp [h]

/-- Looping with an if-guarded append is a filter followed by a map. -/
theorem filterMap_guard {β γ : Type} (l : List β) (p : β → Prop) [DecidablePred p]
    (f : β → γ) :
    l.filterMap (fun b => if p b then some (f b) else none) =
      (l.filter (fun b => decide (p b))).map f := by
  induction l with
  | nil => rfl
  | cons a t ih =>
    by_cases h : p a <;> simp [List.filterMap_cons, List.filter_cons, h, ih]

/-- Claim C1: in both versions, the budget evaluation engine emits the alert
triple (category, budget amount, spent) for exactly the budgets whose spent
strictly exceeds their amount, where spent is the sum of amount over the
expenses whose date lies in the inclusive window from start_date to end_date
(today when absent) and whose category equals the budget category exactly,
except that an "overall" budget matches every expense; an empty selection
gives spent = 0 (the sum over the empty list), and spent equal to the amount
emits no alert. -/
theorem alerts_exactly_for_overspent_budgets
    (es : List Expense) (bs : List Budget) (today : Date) :
    getAlerts es bs today =
      (bs.filter (fun b => decide (b.amount < spentSpec es b today))).map
        (fun b => (b.category, b.amount, spentSpec es b today)) ∧
    checkBudgetAlerts es bs today =
      (bs.filter (fun b => decide (b.amount < spentSpec es b today))).map
        (fun b => (b.category, b.amount, spentSpec es b today)) := by
  constructor
  · unfold getAlerts
    calc bs.filterMap (fun b =>
          let spent := spentFor es b today
          if b.amount < spent then some (b.category, b.amount, spent) else none)
        = bs.filterMap (fun b =>
            if b.amount < spentSpec es b today then
              some (b.category, b.amount, spentSpec es b today) else none) := by
          refine List.filterMap_congr ?_
          intro b _
          simp only [spentFor_eq_spentSpec]
      _ = _ := filterMap_guard bs _ _
  · unfold checkBudgetAlerts
    calc bs.filterMap (fun b =>
          let spent := spentForT es b today
          if b.amount < spent then some (b.category, b.amount, spent) else none)
        = bs.filterMap (fun b =>
            if b.amount < spentSpec es b today then
              some (b.category, b.amount, spentSpec es b today) else none) := by
          refine List.filterMap_congr ?_
          intro b _
          simp only [spentForT_eq_spentSpec]
      _ = _ := filterMap_guard bs _ _

/-- Claim C7: on either store, edit and delete fail with IndexError exactly
when the integer index is outside the half-open range from 0 to the store
length; whenever the error is raised the store is unchanged (the guard runs
before any mutation), and the index is never clamped. -/
theorem index_bounds_guard
    (es : List Expense) (bs : List Budget) (i : Int)
    (kw : List (String × EditVal)) (bkw : List (String × BEditVal)) :
    ((edit_expense es i kw).2.isSome ↔ ¬(0 ≤ i ∧ i < (es.length : Int))) ∧
    (¬(0 ≤ i ∧ i < (es.length : Int)) → (edit_expense es i kw).1 = es) ∧
    ((delete_expense es i).2.isSome ↔ ¬(0 ≤ i ∧ i < (es.length : Int))) ∧
    (¬(0 ≤ i ∧ i < (es.length : Int)) → (delete_expense es i).1 = es) ∧
    ((edit_budget bs i bkw).2.isSome ↔ ¬(0 ≤ i ∧ i < (bs.length : Int))) ∧
    (¬(0 ≤ i ∧ i < (bs.length : Int)) → (edit_budget bs i bkw).1 = bs) ∧
    ((delete_budget bs i).2.isSome ↔ ¬(0 ≤ i ∧ i < (bs.length : Int))) ∧
    (¬(0 ≤ i ∧ i < (bs.length : Int)) → (delete_budget bs i).1 = bs) := by
  unfold edit_expense delete_expense edit_budget delete_budget
  by_cases he : i < 0 ∨ (es.length : Int) ≤ i <;>
    by_cases hb : i < 0 ∨ (bs.length : Int) ≤ i <;>
      simp only [he, hb, if_pos, if_neg, if_true, if_false] <;>
        simp <;> omega

/-- Witness for C7 at concrete inputs: on a one-record store, index 5 fails
and leaves the store unchanged, and index -1 fails on delete as well. -/
theorem index_bounds_guard_witness :
    ((edit_expense [wExp] 5 []).2.isSome ∧ (edit_expense [wExp] 5 []).1 = [wExp]) ∧
    ((delete_budget [wBud] (-1)).2.isSome ∧ (delete_budget [wBud] (-1)).1 = [wBud]) := by
  have h := index_bounds_guard [wExp] [wBud] 5 [] []
  have h2 := index_bounds_guard [wExp] [wBud] (-1) [] []
  exact ⟨⟨h.1.mpr (by decide), h.2.1 (by decide)⟩,
         ⟨(h2.2.2.2.2.2.2.1).mpr (by decide), h2.2.2.2.2.2.2.2 (by decide)⟩⟩

/-- Claim C8: a delete at an in-range index i, on either store, yields a
store one shorter in which positions below i are unchanged and every later
position holds what was one past it before the delete. -/
theorem delete_compacts
    (es : List Expense) (bs : List Budget) (i k : Nat)
    (hi : i < es.length) (hk : k < bs.length) :
    ((delete_expense es (i : Int)).2 = none ∧
     (delete_expense es (i : Int)).1.length = es.length - 1 ∧
     (∀ j, j < i → ((delete_expense es (i : Int)).1)[j]? = es[j]?) ∧
     (∀ j, i ≤ j → j < es.length - 1 →
        ((delete_expense es (i : Int)).1)[j]? = es[j + 1]?)) ∧
    ((delete_budget bs (k : Int)).2 = none ∧
     (delete_budget bs (k : Int)).1.length = bs.length - 1 ∧
     (∀ j, j < k → ((delete_budget bs (k : Int)).1)[j]? = bs[j]?) ∧
     (∀ j, k ≤ j → j < bs.length - 1 →
        ((delete_budget bs (k : Int)).1)[j]? = bs[j + 1]?)) := by
  have hgi : ¬((i : Int) < 0 ∨ (es.length : Int) ≤ (i : Int)) := by omega
  have hgk : ¬((k : Int) < 0 ∨ (bs.length : Int) ≤ (k : Int)) := by omega
  unfold delete_expense delete_budget
  rw [if_neg hgi, if_neg hgk]
  simp only [Int.toNat_natCast]
  refine ⟨⟨trivial, List.length_eraseIdx_of_lt hi, ?_, ?_⟩,
          ⟨trivial, List.length_eraseIdx_of_lt hk, ?_, ?_⟩⟩
  · intro j hj
    rw [List.getElem?_eraseIdx_of_lt _ _ _ hj]
  · intro j hj1 _
    rw [List.getElem?_eraseIdx_of_ge _ _ _ hj1]
  · intro j hj
    rw [List.getElem?_eraseIdx_of_lt _ _ _ hj]
  · intro j hj1 _
    rw [List.getElem?_eraseIdx_of_ge _ _ _ hj1]

/-- Witness for C8: deleting index 1 of a three-record store drops exactly
the middle record. -/
theorem delete_compacts_witness :
    (delete_expense [mkExp 1 1 "a", mkExp 2 2 "b", mkExp 3 3 "c"] ((1 : Nat) : Int)).2 = none ∧
    (delete_expense [mkExp 1 1 "a", mkExp 2 2 "b", mkExp 3 3 "c"] ((1 : Nat) : Int)).1.length = 2 ∧
    ((delete_expense [mkExp 1 1 "a", mkExp 2 2 "b", mkExp 3 3 "c"] ((1 : Nat) : Int)).1)[0]? =
      some (mkExp 1 1 "a") ∧
    ((delete_expense [mkExp 1 1 "a", mkExp 2 2 "b", mkExp 3 3 "c"] ((1 : Nat) : Int)).1)[1]? =
      some (mkExp 3 3 "c") := by
  have h := delete_compacts [mkExp 1 1 "a", mkExp 2 2 "b", mkExp 3 3 "c"] [wBud] 1 0
    (by decide) (by decide)
  refine ⟨h.1.1, h.1.2.1, ?_, ?_⟩
  · rw [h.1.2.2.1 0 (by decide)]; rfl
  · rw [h.1.2.2.2 1 (by decide) (by decide)]; rfl

theorem modifyAt_length {α : Type} (l : List α) (i : Nat) (f : α → α) :
    (modifyAt l i f).length = l.length := by
  induction l generalizing i with
  | nil => rfl
  | cons a t ih =>
    cases i with
    | zero => rfl
    | succ n => simpa [modifyAt] using ih n

theorem getElem?_modifyAt_ne {α : Type} (l : List α) (i j : Nat) (f : α → α)
    (h : j ≠ i) : (modifyAt l i f)[j]? = l[j]? := by
  induction l generalizing i j with
  | nil => rfl
  | cons a t ih =>
    cases i with
    | zero =>
      cases j with
      | zero => exact absurd rfl h
      | succ m => simp [modifyAt]
    | succ n =>
      cases j with
      | zero => simp [modifyAt]
      | succ m => simpa [modifyAt] using ih n m (by omega)

theorem getElem?_modifyAt_self {α : Type} (l : List α) (i : Nat) (f : α → α) :
    (modifyAt l i f)[i]? = (l[i]?).map f := by
  induction l generalizing i with
  | nil => rfl
  | cons a t ih =>
    cases i with
    | zero => simp [modifyAt]
    | succ n => simpa [modifyAt] using ih n

theorem applyKw_keeps_of_ne (e : Expense) (kv : String × EditVal) :
    (kv.1 ≠ "amount" → (applyKw e kv).amount = e.amount) ∧
    (kv.1 ≠ "date" → (applyKw e kv).date = e.date) ∧
    (kv.1 ≠ "category" → (applyKw e kv).category = e.category) ∧
    (kv.1 ≠ "description" → (applyKw e kv).description = e.description) ∧
    (kv.1 ≠ "payment_method" → (applyKw e kv).payment_method = e.payment_method) ∧
    (kv.1 ≠ "tags" → (applyKw e kv).tags = e.tags) := by
  unfold applyKw
  split_ifs <;>
    refine ⟨?_, ?_, ?_, ?_, ?_, ?_⟩ <;>
      intro hne <;>
        first
          | exact absurd (by assumption) hne
          | (cases kv.2 <;> rfl)

theorem foldl_applyKw_keeps (kw : List (String × EditVal)) (e : Expense) :
    keeps (kw.map Prod.fst) e (kw.foldl applyKw e) := by
  induction kw generalizing e with
  | nil =>
    exact ⟨fun _ => rfl, fun _ => rfl, fun _ => rfl, fun _ => rfl,
           fun _ => rfl, fun _ => rfl⟩
  | cons kv t ih =>
    obtain ⟨h1, h2, h3, h4, h5, h6⟩ := ih (applyKw e kv)
    obtain ⟨k1, k2, k3, k4, k5, k6⟩ := applyKw_keeps_of_ne e kv
    refine ⟨fun hm => ?_, fun hm => ?_, fun hm => ?_, fun hm => ?_,
            fun hm => ?_, fun hm => ?_⟩ <;>
      simp only [List.map_cons, List.mem_cons, not_or] at hm <;>
        rw [List.foldl_cons]
    · rw [h1 hm.2, k1 (Ne.symm hm.1)]
    · rw [h2 hm.2, k2 (Ne.symm hm.1)]
    · rw [h3 hm.2, k3 (Ne.symm hm.1)]
    · rw [h4 hm.2, k4 (Ne.symm hm.1)]
    · rw [h5 hm.2, k5 (Ne.symm hm.1)]
    · rw [h6 hm.2, k6 (Ne.symm hm.1)]

theorem applyKw_unknown (e : Expense) (kv : String × EditVal)
    (h : kv.1 ∉ expenseColumns) : applyKw e kv = e := by
  simp only [expenseColumns, List.mem_cons, List.not_mem_nil, or_false, not_or] at h
  obtain ⟨h1, h2, h3, h4, h5, h6⟩ := h
  unfold applyKw
  rw [if_neg h1, if_neg h2, if_neg h3, if_neg h4, if_neg h5, if_neg h6]

theorem foldl_applyKw_skip (pre post : List (String × EditVal))
    (kv : String × EditVal) (h : kv.1 ∉ expenseColumns) (e : Expense) :
    (pre ++ kv :: post).foldl applyKw e = (pre ++ post).foldl applyKw e := by
  rw [List.foldl_append, List.foldl_append, List.foldl_cons, applyKw_unknown _ kv h]

/-- Claim C10: an in-range edit applies only the supplied keys that name one
of the store's six columns; a key outside that set is skipped without error
and without effect (removing it from the kwargs changes nothing); records at
other positions are untouched; and every column of the targeted record not
named by a key keeps its old value. -/
theorem edit_touches_only_named_columns
    (es : List Expense) (i : Nat) (hi : i < es.length)
    (kw pre post : List (String × EditVal)) (kv : String × EditVal)
    (hk : kv.1 ∉ expenseColumns) :
    edit_expense es (i : Int) (pre ++ kv :: post) =
      edit_expense es (i : Int) (pre ++ post) ∧
    (edit_expense es (i : Int) kw).2 = none ∧
    (∀ j, j ≠ i → ((edit_expense es (i : Int) kw).1)[j]? = es[j]?) ∧
    (∀ r, ((edit_expense es (i : Int) kw).1)[i]? = some r →
        keeps (kw.map Prod.fst) (es.get ⟨i, hi⟩) r) := by
  have hg : ¬((i : Int) < 0 ∨ (es.length : Int) ≤ (i : Int)) := by omega
  unfold edit_expense
  simp only [if_neg hg, Int.toNat_natCast]
  refine ⟨?_, trivial, ?_, ?_⟩
  · have hfun : (fun e => (pre ++ kv :: post).foldl applyKw e) =
        (fun e => (pre ++ post).foldl applyKw e) :=
      funext (fun e => foldl_applyKw_skip pre post kv hk e)
    rw [hfun]
  · intro j hj
    exact getElem?_modifyAt_ne es i j _ hj
  · intro r hr
    rw [getElem?_modifyAt_self es i _] at hr
    simp [List.getElem?_eq_getElem hi] at hr
    rw [← hr]
    exact foldl_applyKw_keeps kw _

/-- Witness for C10 on a two-record store: an edit at index 0 with an
unknown key and a category update leaves every other column and the other
record unchanged. -/
theorem edit_touches_only_named_columns_witness :
    edit_expense [wExp, c9Expense] ((0 : Nat) : Int)
        [("nonsense", EditVal.num 7), ("category", EditVal.str "Gift")] =
      edit_expense [wExp, c9Expense] ((0 : Nat) : Int)
        [("category", EditVal.str "Gift")] ∧
    ((edit_expense [wExp, c9Expense] ((0 : Nat) : Int)
        [("category", EditVal.str "Gift")]).1)[1]? = some c9Expense := by
  have h := edit_touches_only_named_columns [wExp, c9Expense] 0 (by decide)
    [("category", EditVal.str "Gift")] [] [("category", EditVal.str "Gift")]
    ("nonsense", EditVal.num 7) (by decide)
  refine ⟨h.1, ?_⟩
  rw [h.2.2.1 1 (by decide)]
  rfl

theorem foldlS_dr (df : List Expense) (dr : Option (Date × Date)) :
    ((match dr with
      | some p => [("date_range", FilterVal.dateRange (some p.1) (some p.2))]
      | none => ([] : Filters)).foldl applyFilterS df) = df.filter (drKeep dr) := by
  cases dr with
  | none => exact (List.filter_true df).symm
  | some p => rfl

theorem foldlS_ar (df : List Expense) (ar : Option (ℚ × ℚ)) :
    ((match ar with
      | some p => [("amount_range", FilterVal.amountRange (some p.1) (some p.2))]
      | none => ([] : Filters)).foldl applyFilterS df) = df.filter (arKeep ar) := by
  cases ar with
  | none => exact (List.filter_true df).symm
  | some p => rfl

theorem foldlS_cat (df : List Expense) (cat : Option String) (hc : cat ≠ some "") :
    ((match cat with
      | some s => [("category", FilterVal.str s)]
      | none => ([] : Filters)).foldl applyFilterS df) = df.filter (catKeep cat) := by
  cases cat with
  | none => exact (List.filter_true df).symm
  | some c =>
    have hcc : c ≠ "" := fun h => hc (by rw [h])
    show (if c = "" then df else df.filter (fun x => containsCI x.category c)) = _
    rw [if_neg hcc]
    rfl

theorem foldlS_pm (df : List Expense) (pm : Option String) (hp : pm ≠ some "") :
    ((match pm with
      | some s => [("payment_method", FilterVal.str s)]
      | none => ([] : Filters)).foldl applyFilterS df) = df.filter (pmKeep pm) := by
  cases pm with
  | none => exact (List.filter_true df).symm
  | some c =>
    have hcc : c ≠ "" := fun h => hp (by rw [h])
    show (if c = "" then df else df.filter (fun x => decide (x.payment_method = c))) = _
    rw [if_neg hcc]
    rfl

theorem foldlS_tg (df : List Expense) (tg : Option String) (ht : tg ≠ some "") :
    ((match tg with
      | some s => [("tags", FilterVal.str s)]
      | none => ([] : Filters)).foldl applyFilterS df) = df.filter (tgKeep tg) := by
  cases tg with
  | none => exact (List.filter_true df).symm
  | some c =>
    have hcc : c ≠ "" := fun h => ht (by rw [h])
    show (if c = "" then df else df.filter (fun x => containsCI x.tags c)) = _
    rw [if_neg hcc]
    rfl

theorem foldlT_dr (df : List Expense) (dr : Option (Date × Date)) :
    ((match dr with
      | some p => [("date_range", FilterVal.dateRange (some p.1) (some p.2))]
      | none => ([] : Filters)).foldl applyFilterT df) = df.filter (drKeep dr) := by
  cases dr with
  | none => exact (List.filter_true df).symm
  | some p => rfl

theorem foldlT_ar (df : List Expense) (ar : Option (ℚ × ℚ)) :
    ((match ar with
      | some p => [("amount_range", FilterVal.amountRange (some p.1) (some p.2))]
      | none => ([] : Filters)).foldl applyFilterT df) = df.filter (arKeep ar) := by
  cases ar with
  | none => exact (List.filter_true df).symm
  | some p => rfl

theorem foldlT_cat (df : List Expense) (cat : Option String) :
    ((match cat with
      | some s => [("category", FilterVal.str s)]
      | none => ([] : Filters)).foldl applyFilterT df) = df.filter (catKeepT cat) := by
  cases cat with
  | none => exact (List.filter_true df).symm
  | some c => rfl

theorem foldlT_pm (df : List Expense) (pm : Option String) :
    ((match pm with
      | some s => [("payment_method", FilterVal.str s)]
      | none => ([] : Filters)).foldl applyFilterT df) = df.filter (pmKeep pm) := by
  cases pm with
  | none => exact (List.filter_true df).symm
  | some c => rfl

theorem foldlT_tg (df : List Expense) (tg : Option String) :
    ((match tg with
      | some s => [("tags", FilterVal.str s)]
      | none => ([] : Filters)).foldl applyFilterT df) = df.filter (tgKeepT tg) := by
  cases tg with
  | none => exact (List.filter_true df).symm
  | some c => rfl

/-- Claim C5 (amended): with any combination of supplied filters and no
sort, the browser version's view returns exactly the records satisfying the
AND of the supplied predicates as the claim states them (inclusive date and
amount ranges, case-insensitive category and tags containment, exact
payment method); the terminal version differs from the claim in that its
category predicate is exact string equality and its tags predicate is a
case-sensitive containment, the other predicates being as claimed. -/
theorem view_returns_records_matching_all_filters
    (es : List Expense) (dr : Option (Date × Date)) (ar : Option (ℚ × ℚ))
    (cat pm tg : Option String)
    (hc : cat ≠ some "") (hp : pm ≠ some "") (ht : tg ≠ some "") :
    view_expenses es (mkFilters dr ar cat pm tg) none =
      Except.ok (es.filter (claimKeep dr ar cat pm tg)) ∧
    view_expensesT es (mkFilters dr ar cat pm tg) none =
      Except.ok (es.filter (claimKeepT dr ar cat pm tg)) := by
  constructor
  · unfold view_expenses mkFilters
    rw [List.foldl_append, List.foldl_append, List.foldl_append, List.foldl_append]
    rw [foldlS_dr, foldlS_ar, foldlS_cat _ _ hc, foldlS_pm _ _ hp, foldlS_tg _ _ ht]
    simp only [List.filter_filter, sortStep]
    refine congrArg Except.ok (List.filter_congr ?_)
    intro e _
    simp [claimKeep, Bool.and_comm, Bool.and_left_comm, Bool.and_assoc]
  · unfold view_expensesT mkFilters
    rw [List.foldl_append, List.foldl_append, List.foldl_append, List.foldl_append]
    rw [foldlT_dr, foldlT_ar, foldlT_cat, foldlT_pm, foldlT_tg]
    simp only [List.filter_filter, sortStep]
    refine congrArg Except.ok (List.filter_congr ?_)
    intro e _
    simp [claimKeepT, Bool.and_comm, Bool.and_left_comm, Bool.and_assoc]

/-- Witness for C5 at a concrete input: a date filter and a category filter
together keep exactly the matching record. -/
theorem view_returns_records_matching_all_filters_witness :
    view_expenses [c5Expense, c9Expense] (mkFilters (some (0, 5)) none (some "FOOD") none none) none =
      Except.ok ([c5Expense, c9Expense].filter (claimKeep (some (0, 5)) none (some "FOOD") none none)) ∧
    view_expensesT [c5Expense, c9Expense] (mkFilters (some (0, 5)) none (some "FOOD") none none) none =
      Except.ok ([c5Expense, c9Expense].filter (claimKeepT (some (0, 5)) none (some "FOOD") none none)) :=
  view_returns_records_matching_all_filters [c5Expense, c9Expense]
    (some (0, 5)) none (some "FOOD") none none
    (by simp) (by simp) (by simp)

/-- C5 counterexample: the record with category "Foods" satisfies the
claim's case-insensitive containment predicate for the filter string
"food", yet the terminal version's view, which compares categories by exact
equality, returns the empty result. -/
theorem terminal_category_filter_is_exact_equality :
    view_expensesT [c5Expense] [("category", FilterVal.str "food")] none =
      Except.ok [] ∧
    claimKeep none none (some "food") none none c5Expense = true := by
  constructor
  · rfl
  · rfl

theorem applyFilterS_unknown (df : List Expense) (kv : String × FilterVal)
    (h : kv.1 ∉ filterKeys) : applyFilterS df kv = df := by
  simp only [filterKeys, List.mem_cons, List.not_mem_nil, or_false, not_or] at h
  obtain ⟨h1, h2, h3, h4, h5⟩ := h
  unfold applyFilterS
  rw [if_neg h1, if_neg h2, if_neg h3, if_neg h4, if_neg h5]

theorem applyFilterT_unknown (df : List Expense) (kv : String × FilterVal)
    (h : kv.1 ∉ filterKeys) : applyFilterT df kv = df := by
  simp only [filterKeys, List.mem_cons, List.not_mem_nil, or_false, not_or] at h
  obtain ⟨h1, h2, h3, h4, h5⟩ := h
  unfold applyFilterT
  rw [if_neg h1, if_neg h2, if_neg h3, if_neg h4, if_neg h5]

/-- Claim C9 (amended): an unknown FILTER key is silently skipped in both
versions, the result being the one without that key and no error arising;
an unknown (nonempty) SORT key, however, is not ignored: sort_values raises
KeyError, which the claim as stated denies. -/
theorem unknown_filter_key_skipped_unknown_sort_key_raises
    (es : List Expense) (pre post : Filters) (kv : String × FilterVal)
    (sb : String) (hk : kv.1 ∉ filterKeys)
    (hs : sb ∉ expenseColumns) (hsne : sb ≠ "") :
    view_expenses es (pre ++ kv :: post) none = view_expenses es (pre ++ post) none ∧
    view_expensesT es (pre ++ kv :: post) none = view_expensesT es (pre ++ post) none ∧
    (∀ filters : Filters, view_expenses es filters (some sb) = Except.error "KeyError") ∧
    (∀ filters : Filters, view_expensesT es filters (some sb) = Except.error "KeyError") := by
  refine ⟨?_, ?_, ?_, ?_⟩
  · unfold view_expenses
    rw [List.foldl_append, List.foldl_append, List.foldl_cons,
      applyFilterS_unknown _ kv hk]
  · unfold view_expensesT
    rw [List.foldl_append, List.foldl_append, List.foldl_cons,
      applyFilterT_unknown _ kv hk]
  · intro filters
    simp only [view_expenses, sortStep]
    rw [if_neg hsne, if_neg hs]
  · intro filters
    simp only [view_expensesT, sortStep]
    rw [if_neg hsne, if_neg hs]

/-- Witness for C9 (amended) at concrete inputs: the unknown filter key
"foo" changes nothing and the unknown sort key "foo" raises KeyError. -/
theorem unknown_filter_key_skipped_witness :
    view_expenses [c9Expense] [("foo", FilterVal.str "x"), ("category", FilterVal.str "Mis")] none =
      view_expenses [c9Expense] [("category", FilterVal.str "Mis")] none ∧
    view_expenses [c9Expense] [] (some "foo") = Except.error "KeyError" := by
  have h := unknown_filter_key_skipped_unknown_sort_key_raises [c9Expense]
    [] [("category", FilterVal.str "Mis")] ("foo", FilterVal.str "x") "foo"
    (by decide) (by decide) (by decide)
  exact ⟨h.1, h.2.2.1 []⟩

/-- C9 counterexample: with the unknown sort key "foo" the view raises
KeyError, while without that key it returns the store; the result with the
key is therefore an error and not the result without it. -/
theorem unknown_sort_key_not_ignored :
    view_expenses [c9Expense] [] (some "foo") = Except.error "KeyError" ∧
    view_expenses [c9Expense] [] none = Except.ok [c9Expense] := by
  constructor
  · rfl
  · rfl

/-- Claim C2 evaluated on the code at the failing input: an active monthly
budget for "Food" of amount 0 together with one in-window "Food" expense of
5 yields a comparison row whose percentage is positive infinity, because
5 / 0 is inf in float arithmetic and fillna(0) on line 249 replaces only
NaN; the spec requires 0.  The second conjunct records that fillna does
recover the 0 / 0 subcase. -/
theorem zero_budget_percentage_is_inf :
    get_budget_vs_actual c2Expenses c2Budgets 10 =
      [{ category := "Food", budget := 0, actual := 5, difference := 5,
         percentage := PFloat.inf }] ∧
    percentageOf 0 0 = PFloat.val 0 := by
  constructor
  · have hfo : ("Food" : String) ≠ "overall" := by decide
    norm_num [get_budget_vs_actual, c2Expenses, c2Budgets, mkExp, mkBud, isActive,
      inWindow, windowEnd, actualEntry, mergeRows, hfo]
    norm_num [finishRow, percentageOf, pdiv, pmul100, pround1, fillna0, round1, rhe]
    exact fun h => absurd h hfo
  · norm_num [percentageOf, pdiv, pmul100, pround1, fillna0]

/-- C3 counterexample: with an empty expense store the comparison table is
empty although the budget store holds an active monthly budget, for which
the claim demands a row with actual = 0. -/
theorem empty_expense_store_gives_no_comparison_rows :
    get_budget_vs_actual [] c3Budgets 10 = [] ∧
    c3Budgets.filter (isActive 10) = c3Budgets ∧ c3Budgets ≠ [] := by
  refine ⟨rfl, rfl, by simp [c3Budgets]⟩

/-- Claim C4 evaluated on the code at the failing input: the loop stores the
overall budget's window sum under the key "Overall", but the merge joins on
the budget's own key "overall", so the row keeps a null actual that
fillna(0) turns into 0; the window sum of the expenses is 5 and the spec
requires actual = 5.  Only the display label of the row is "Overall". -/
theorem overall_budget_actual_dropped_by_merge :
    get_budget_vs_actual c4Expenses [c4Budget] 10 =
      [{ category := "Overall", budget := 100, actual := 0, difference := -100,
         percentage := PFloat.val 0 }] ∧
    spentSpec c4Expenses c4Budget 10 = 5 := by
  constructor
  · have hoo : ("Overall" : String) ≠ "overall" := by decide
    have hov : ("overall" : String) = "overall" := rfl
    norm_num [get_budget_vs_actual, c4Expenses, c4Budget, mkExp, mkBud, isActive,
      inWindow, windowEnd, actualEntry, mergeRows, hoo, hov]
    norm_num [finishRow, percentageOf, pdiv, pmul100, pround1, fillna0, round1, rhe]
  · norm_num [spentSpec, c4Expenses, c4Budget, mkExp, mkBud, inWindow, windowEnd]

theorem actualEntry_fst (es : List Expense) (today : Date) (b : Budget)
    (h : b.category ≠ "overall") : (actualEntry es today b).1 = b.category := by
  unfold actualEntry
  rw [if_neg h]

theorem actualEntry_snd (es : List Expense) (today : Date) (b : Budget)
    (h : b.category ≠ "overall") :
    (actualEntry es today b).2 = spentSpec es b today := by
  have hs := spentFor_eq_spentSpec es b today
  unfold spentFor at hs
  rw [if_neg h] at hs
  unfold actualEntry
  rw [if_neg h]
  exact hs

/-- With pairwise-distinct non-overall categories, the key filter over
actual_list finds exactly the budget's own entry. -/
theorem filter_key_singleton (es : List Expense) (today : Date)
    (l : List Budget) (b : Budget)
    (hnd : (l.map Budget.category).Nodup)
    (hno : ∀ x ∈ l, x.category ≠ "overall")
    (hb : b ∈ l) :
    (l.map (actualEntry es today)).filter (fun p => decide (p.1 = b.category)) =
      [actualEntry es today b] := by
  induction l with
  | nil => cases hb
  | cons a t ih =>
    rw [List.map_cons, List.filter_cons]
    rw [List.map_cons, List.nodup_cons] at hnd
    rcases List.mem_cons.mp hb with hba | hbt
    · subst hba
      rw [actualEntry_fst es today b (hno b (List.mem_cons_self b t))]
      have ht : (t.map (actualEntry es today)).filter
          (fun p => decide (p.1 = b.category)) = [] := by
        rw [List.filter_eq_nil_iff]
        intro p hp
        obtain ⟨x, hx, hpx⟩ := List.mem_map.mp hp
        rw [← hpx, actualEntry_fst es today x (hno x (List.mem_cons_of_mem b hx))]
        simp only [decide_eq_true_eq]
        intro hxb
        exact hnd.1 (hxb ▸ List.mem_map_of_mem Budget.category hx)
      simp [ht]
    · have hne : a.category ≠ b.category := by
        intro hab
        exact hnd.1 (hab ▸ List.mem_map_of_mem Budget.category hbt)
      rw [actualEntry_fst es today a (hno a (List.mem_cons_self a t))]
      simp only [decide_eq_true_eq, if_neg hne]
      exact ih hnd.2 (fun x hx => hno x (List.mem_cons_of_mem a hx)) hbt

/-- A flatMap all of whose blocks are singletons is a map. -/
theorem flatMap_eq_map_of_singleton {α β : Type} (l : List α) (g : α → List β)
    (f : α → β) (h : ∀ a ∈ l, g a = [f a]) : l.flatMap g = l.map f := by
  induction l with
  | nil => rfl
  | cons a t ih =>
    rw [List.flatMap_cons, h a (List.mem_cons_self a t), List.map_cons,
      ih (fun x hx => h x (List.mem_cons_of_mem a hx)), List.singleton_append]

/-- Claim C3 (amended): provided the expense store is non-empty and the
active monthly budgets (start_date <= today and end_date absent or >= today)
carry pairwise-distinct category labels, none of them the sentinel
"overall", the comparison table holds exactly one row per active budget, in
order, with budget = the budget's amount, actual = the spent sum over its
window, difference = actual - budget and percentage = the rounded ratio
with the pipeline's float semantics; an active budget matched by no
expenses still yields its row with actual = 0 (the empty sum).  The
amendment is forced: an empty expense store returns a rowless table even
when active budgets exist (see the counterexample); moreover a category
label shared by two active budgets duplicates rows through the merge, and
an "overall" budget's actual is dropped (claim C4). -/
theorem comparison_rows_for_active_budgets
    (es : List Expense) (bs : List Budget) (today : Date)
    (hes : es ≠ [])
    (hnd : ((bs.filter (isActive today)).map Budget.category).Nodup)
    (hno : ∀ b ∈ bs.filter (isActive today), b.category ≠ "overall") :
    get_budget_vs_actual es bs today =
      (bs.filter (isActive today)).map (specRow es today) := by
  unfold get_budget_vs_actual
  by_cases hbs : bs = []
  · subst hbs
    simp
  · rw [if_neg (by simp [hbs, hes])]
    by_cases hact : bs.filter (isActive today) = []
    · rw [if_pos hact, hact, List.map_nil]
    · rw [if_neg hact]
      unfold mergeRows
      rw [flatMap_eq_map_of_singleton _ _
        (fun b => (b.category, b.amount, some (spentSpec es b today)))
        (fun b hb => by
          have hkey := filter_key_singleton es today (bs.filter (isActive today)) b
            hnd hno hb
          simp only [hkey]
          rw [if_neg (by simp)]
          rw [List.map_cons, List.map_nil,
            actualEntry_snd es today b (hno b hb)])]
      rw [List.map_map]
      refine List.map_congr_left ?_
      intro b hb
      unfold Function.comp finishRow specRow
      simp only [Option.getD_some]
      rw [if_neg (hno b hb)]

/-- Witness for C3 at a concrete input: one active monthly "Food" budget of
100 and one in-window "Food" expense of 50 produce exactly the one
comparison row the amended claim describes. -/
theorem comparison_rows_for_active_budgets_witness :
    get_budget_vs_actual w3Expenses c3Budgets 10 =
      (c3Budgets.filter (isActive 10)).map (specRow w3Expenses 10) ∧
    (c3Budgets.filter (isActive 10)).map (specRow w3Expenses 10) =
      [{ category := "Food", budget := 100, actual := 50, difference := -50,
         percentage := PFloat.val 50 }] := by
  refine ⟨comparison_rows_for_active_budgets w3Expenses c3Budgets 10
    (by simp [w3Expenses]) (by decide) (by decide), ?_⟩
  norm_num [c3Budgets, w3Expenses, specRow, spentSpec, mkExp, mkBud, isActive,
    inWindow, windowEnd, percentageOf, pdiv, pmul100, pround1, fillna0, round1, rhe]

end ShinyJar
